import Mathlib

/-!
Verification of the fantasy-ai User Ledger Store.

This file shallowly embeds the server-side CRUD actions of
`src/lib/actions/user.actions.ts`, the error normalisation of `handleError`
and the `deepMergeObjects` utility (both in the utility module), and the
Mongoose `ImageSchema` of `src/lib/database/models/image.model.ts`, and
proves the specification claims about them.

The document store is modelled as an explicit state (a list of user
documents plus a fresh-id counter).  Each Mongoose call used by the code
(`create`, `findOne`, `findOneAndUpdate` with a plain update or with
`$inc`, `findOneAndDelete`, `findByIdAndDelete`) is modelled as a single
atomic transition on that state, matching the store's semantics: in
particular the `$inc` update is one step that never reads the balance into
the application before writing.
-/

set_option autoImplicit false

namespace FantasyAI

/-- A persisted user document.

Modelled from the spec: the Mongoose user schema
(`src/lib/database/models/user.model.ts`) is not among the provided source
files; the fields are taken from `CreateUserParams` in
`src/lib/actions/user.actions.ts` together with spec section 3, which adds
the database-assigned immutable primary key `_id`.  The MongoDB ObjectId is
modelled as a `Nat` drawn from a fresh-id counter. -/
structure UserDoc where
  _id : Nat
  clerkId : String
  email : String
  username : String
  photo : String
  firstname : String
  lastname : String
  planId : Int
  creditBalance : Int
  stripeId : String
  stripeCustomerId : String
  deriving DecidableEq, Repr

/-- The state of the backing document store: the user collection in natural
(insertion) order, plus the counter from which `_id` values are assigned. -/
structure DBState where
  users : List UserDoc
  nextId : Nat
  deriving DecidableEq, Repr

/-- `CreateUserParams` from `src/lib/actions/user.actions.ts` (lines 26-37):
the full creation input, including the initial `creditBalance`. -/
structure CreateUserParams where
  clerkId : String
  email : String
  username : String
  photo : String
  firstname : String
  lastname : String
  planId : Int
  creditBalance : Int
  stripeId : String
  stripeCustomerId : String
  deriving DecidableEq, Repr

/-- A partial update payload for `updateUser`.  The TypeScript parameter is
`any | UpdateUserParams`; Mongoose applies a plain object as a field-wise
set of exactly the named fields, so the payload is a record of optional
fields (the fields of `UpdateUserParams`, lines 82-92; `none` means the
field is absent from the payload). -/
structure UpdateUserPayload where
  email : Option String
  username : Option String
  photo : Option String
  firstname : Option String
  lastname : Option String
  planId : Option Int
  creditBalance : Option Int
  stripeId : Option String
  stripeCustomerId : Option String
  deriving DecidableEq, Repr

/-- The payload with every field absent. -/
def UpdateUserPayload.empty : UpdateUserPayload :=
  ⟨none, none, none, none, none, none, none, none, none⟩

/-- A JavaScript thrown value, as discriminated by `handleError`
(utility module, lines 23-31): an `Error` instance carrying a message, a
string primitive, or anything else (a number, a plain object, ...). -/
inductive JSErr where
  | errObj (msg : String)
  | strVal (s : String)
  | other
  deriving DecidableEq, Repr

/-- Outcome of `handleError`: either it logged a message to the console and
threw a fresh normalised `Error`, or it fell through (no branch matched)
and returned normally. -/
inductive HandledError where
  | rethrown (logged : String) (newMsg : String)
  | swallowed
  deriving DecidableEq, Repr

/-- `handleError` from the utility module (lines 23-31): an `Error`
instance is logged by its `.message` and rethrown as
`Error: <message>`; a string is logged verbatim and rethrown as
`Unknown error: <JSON.stringify of the string>` (for strings without
JSON-escaped characters `JSON.stringify` wraps the string in quotes);
any other thrown value matches no branch and the function returns. -/
def handleError : JSErr → HandledError
  | JSErr.errObj m => HandledError.rethrown m ("Error: " ++ m)
  | JSErr.strVal s =>
      HandledError.rethrown s ("Unknown error: " ++ "\"" ++ s ++ "\"")
  | JSErr.other => HandledError.swallowed

/-- How one of the exported async operations settles: `ok v` — the promise
resolves with value `v`; `okUndefined` — the promise resolves with
`undefined` (the catch block ran but `handleError` returned without
throwing); `err m` — the promise rejects with a normalised `Error` whose
message is `m`. -/
inductive Outcome (α : Type) where
  | ok (v : α)
  | okUndefined
  | err (msg : String)
  deriving DecidableEq, Repr

/-- The full observable result of one operation: how its promise settled,
the store state afterwards, the messages written with `console.error`, and
the paths passed to `revalidatePath`. -/
structure OpResult (α : Type) where
  outcome : Outcome α
  state : DBState
  log : List String
  revalidations : List String
  deriving DecidableEq, Repr

/-- The common `catch (err) { handleError(err) }` boundary of every
operation: an `Error` or string failure is logged and turns into a
rejection; any other thrown value is swallowed and the operation resolves
with `undefined`.  The store state is left as it was when the failure
arose. -/
def catchWith {α : Type} (e : JSErr) (s : DBState) : OpResult α :=
  match handleError e with
  | HandledError.rethrown logged newMsg =>
      ⟨Outcome.err newMsg, s, [logged], []⟩
  | HandledError.swallowed => ⟨Outcome.okUndefined, s, [], []⟩

/-- `User.findOne` filter on `clerkId`: the first document in natural
order whose `clerkId` equals the key. -/
def findByClerk (users : List UserDoc) (cid : String) : Option UserDoc :=
  users.find? (fun d => d.clerkId == cid)

/-- Lookup of a document by primary key, as used by the `{ _id: userId }`
filters. -/
def findById (users : List UserDoc) (uid : Nat) : Option UserDoc :=
  users.find? (fun d => d._id == uid)

/-- `findOneAndUpdate` as a single store-level step: rewrite the first
document satisfying `p` with `f`, returning the rewritten document (the
`new: true` option) and the new collection; `none` when nothing matches. -/
def replaceFirst (p : UserDoc → Bool) (f : UserDoc → UserDoc) :
    List UserDoc → Option (UserDoc × List UserDoc)
  | [] => none
  | d :: rest =>
      if p d then some (f d, f d :: rest)
      else (replaceFirst p f rest).map (fun r => (r.1, d :: r.2))

/-- `findOneAndDelete` / `findByIdAndDelete` as a single store-level step:
remove the first document satisfying `p`, returning it and the remaining
collection; `none` when nothing matches. -/
def removeFirst (p : UserDoc → Bool) :
    List UserDoc → Option (UserDoc × List UserDoc)
  | [] => none
  | d :: rest =>
      if p d then some (d, rest)
      else (removeFirst p rest).map (fun r => (r.1, d :: r.2))

/-- The document `User.create` persists for a creation input: the input's
fields plus the database-assigned primary key. -/
def mkDoc (u : CreateUserParams) (id : Nat) : UserDoc :=
  ⟨id, u.clerkId, u.email, u.username, u.photo, u.firstname, u.lastname,
    u.planId, u.creditBalance, u.stripeId, u.stripeCustomerId⟩

/-- Field-wise application of an update payload, as Mongoose applies a
plain update object: exactly the named fields are set, every other field
(including `_id` and `clerkId`, which the payload cannot name) is kept. -/
def applyUpdate (d : UserDoc) (p : UpdateUserPayload) : UserDoc :=
  { d with
    email := p.email.getD d.email
    username := p.username.getD d.username
    photo := p.photo.getD d.photo
    firstname := p.firstname.getD d.firstname
    lastname := p.lastname.getD d.lastname
    planId := p.planId.getD d.planId
    creditBalance := p.creditBalance.getD d.creditBalance
    stripeId := p.stripeId.getD d.stripeId
    stripeCustomerId := p.stripeCustomerId.getD d.stripeCustomerId }

/-- `createUser` (user.actions.ts lines 14-24).  `fault` injects a failure
raised by the backing store during the operation (at `connectToDatabase`
or the store call); `none` is the fault-free run.  The happy path persists
one new document with a fresh `_id` and resolves with it
(`JSON.parse(JSON.stringify(...))` is a plain copy). -/
def createUser (fault : Option JSErr) (u : CreateUserParams) (s : DBState) :
    OpResult UserDoc :=
  match fault with
  | some e => catchWith e s
  | none =>
      let d := mkDoc u s.nextId
      ⟨Outcome.ok d, ⟨s.users ++ [d], s.nextId + 1⟩, [], []⟩

/-- `getUserById` (user.actions.ts lines 45-57): `findOne` on `clerkId`;
a missing document raises `Error("User not found")`, which the catch
boundary logs and normalises. -/
def getUserById (fault : Option JSErr) (userId : String) (s : DBState) :
    OpResult UserDoc :=
  match fault with
  | some e => catchWith e s
  | none =>
      match findByClerk s.users userId with
      | none => catchWith (JSErr.errObj "User not found") s
      | some d => ⟨Outcome.ok d, s, [], []⟩

/-- `updateUser` (user.actions.ts lines 66-80): `findOneAndUpdate` on
`clerkId` with the payload and `new: true`; a missing document raises
`Error("User update failed")`. -/
def updateUser (fault : Option JSErr) (clerkId : String)
    (u : UpdateUserPayload) (s : DBState) : OpResult UserDoc :=
  match fault with
  | some e => catchWith e s
  | none =>
      match replaceFirst (fun d => d.clerkId == clerkId)
          (fun d => applyUpdate d u) s.users with
      | none => catchWith (JSErr.errObj "User update failed") s
      | some (d, users') => ⟨Outcome.ok d, ⟨users', s.nextId⟩, [], []⟩

/-- `deleteUser` (user.actions.ts lines 100-119): `findOneAndDelete` on
`clerkId` (a miss raises `Error("User not found")`), then
`findByIdAndDelete` on the deleted document's `_id` against the store as
the first deletion left it, then `revalidatePath("/")`; resolves with the
second deletion's document, or with `null` when the second lookup found
nothing. -/
def deleteUser (fault : Option JSErr) (clerkId : String) (s : DBState) :
    OpResult (Option UserDoc) :=
  match fault with
  | some e => catchWith e s
  | none =>
      match removeFirst (fun d => d.clerkId == clerkId) s.users with
      | none => catchWith (JSErr.errObj "User not found") s
      | some (d, rest) =>
          match removeFirst (fun x => x._id == d._id) rest with
          | none => ⟨Outcome.ok none, ⟨rest, s.nextId⟩, [], ["/"]⟩
          | some (d2, rest2) =>
              ⟨Outcome.ok (some d2), ⟨rest2, s.nextId⟩, [], ["/"]⟩

/-- `updateCredits` (user.actions.ts lines 128-144): one
`findOneAndUpdate` on the primary key with `{ $inc: { creditBalance:
creditFee } }` and `new: true` — a single database-level atomic increment,
never a fetch followed by a write; a missing document raises
`Error("User credits update failed")`.  (The string-to-ObjectId cast of
`userId` is the identity in this model, where primary keys are `Nat`.) -/
def updateCredits (fault : Option JSErr) (userId : Nat) (creditFee : Int)
    (s : DBState) : OpResult UserDoc :=
  match fault with
  | some e => catchWith e s
  | none =>
      match replaceFirst (fun d => d._id == userId)
          (fun d => { d with creditBalance := d.creditBalance + creditFee })
          s.users with
      | none => catchWith (JSErr.errObj "User credits update failed") s
      | some (d, users') => ⟨Outcome.ok d, ⟨users', s.nextId⟩, [], []⟩

/-! ### deepMergeObjects (utility module, lines 187-210) -/

/-- A JavaScript value as relevant to `deepMergeObjects`: `null`,
`undefined`, a boolean, a number, a string, or a plain object given by its
own enumerable properties in insertion order.  (In JavaScript an object's
keys are unique; the claims therefore carry key-uniqueness hypotheses
where they matter.) -/
inductive JVal where
  | null
  | undef
  | bool (b : Bool)
  | num (n : Int)
  | str (s : String)
  | obj (fields : List (String × JVal))
  deriving Repr

/-- `v && typeof v === "object"`, the guard `deepMergeObjects` applies to
both sides before recursing: true exactly for (truthy) plain objects —
`null` has `typeof "object"` but is falsy. -/
def isObjV : JVal → Bool
  | JVal.obj _ => true
  | _ => false

/-- Property read `o[k]`: the value at the first matching key, `none` for
`undefined` (absent). -/
def findVal : List (String × JVal) → String → Option JVal
  | [], _ => none
  | (k', v) :: rest, k => if k' == k then some v else findVal rest k

/-- Property write `o[k] = v`: overwrite the first matching key in place,
or append the new key at the end, as JavaScript assignment does. -/
def setKey : List (String × JVal) → String → JVal → List (String × JVal)
  | [], k, v => [(k, v)]
  | (k', v') :: rest, k, v =>
      if k' == k then (k', v) :: rest else (k', v') :: setKey rest k v

/-- The own enumerable properties a value contributes to `{ ...obj2 }` and
to `for (let key in obj1)`: an object's fields; nothing for `null`,
`undefined`, booleans and numbers.  (String index-property enumeration is
outside the model; the claims quantify over objects only.) -/
def fieldsOf : JVal → List (String × JVal)
  | JVal.obj f => f
  | _ => []

mutual

/-- `deepMergeObjects` (utility module, lines 187-210): if `obj2` is
`null` or `undefined`, return `obj1`; otherwise start from a copy of
`obj2` (`let output = { ...obj2 }`) and for each own key of `obj1` write
`obj1[key]` — except that when both `obj1[key]` and `obj2[key]` are
truthy objects the two are merged recursively. -/
def deepMergeObjects : JVal → JVal → JVal
  | o1, JVal.null => o1
  | o1, JVal.undef => o1
  | JVal.obj f1, o2 => JVal.obj (mergeLoop f1 (fieldsOf o2) (fieldsOf o2))
  | _, o2 => JVal.obj (fieldsOf o2)
termination_by o1 _ => sizeOf o1

/-- The `for (let key in obj1)` loop of `deepMergeObjects`: `l` is the
remaining keys of `obj1`, `f2` the (unchanged) fields of `obj2`, `out`
the output object built so far. -/
def mergeLoop : List (String × JVal) → List (String × JVal) →
    List (String × JVal) → List (String × JVal)
  | [], _, out => out
  | (k, v1) :: rest, f2, out =>
      let v := match findVal f2 k with
        | some v2 =>
            if isObjV v1 && isObjV v2 then deepMergeObjects v1 v2 else v1
        | none => v1
      mergeLoop rest f2 (setKey out k v)
termination_by l _ _ => sizeOf l

end

/-- The value `deepMergeObjects` assigns for a key `k` of `obj1`, given
`obj1[k] = v1` and `obj2[k]` (`none` when absent): the recursive merge
when both are objects, `v1` otherwise. -/
def mergedValue (v1 : JVal) (ov2 : Option JVal) : JVal :=
  match ov2 with
  | some v2 => if isObjV v1 && isObjV v2 then deepMergeObjects v1 v2 else v1
  | none => v1

/-! ### Image schema (src/lib/database/models/image.model.ts) -/

/-- A Mongoose schema field type as used in `ImageSchema`. -/
inductive MongooseFieldType where
  | string
  | number
  | obj
  | url
  | objectIdRef (ref : String)
  | date
  | arrayOf (t : MongooseFieldType)
  deriving DecidableEq, Repr

/-- One field declaration of a Mongoose schema: its type and whether it is
`required` (the `default: Date.now` of the timestamp fields is elided —
no claim concerns it). -/
structure SchemaField where
  ftype : MongooseFieldType
  required : Bool
  deriving DecidableEq, Repr

/-- Association-list lookup by string key (first match). -/
def assocFind {α : Type} : List (String × α) → String → Option α
  | [], _ => none
  | (k', v) :: rest, k => if k' == k then some v else assocFind rest k

/-- `ImageSchema` (image.model.ts lines 24-39), field by field as the
source declares it.  Note `transformationTypes` is declared
`{ type: String, required: true }` — a scalar `String`. -/
def ImageSchema : List (String × SchemaField) :=
  [("title", ⟨MongooseFieldType.string, true⟩),
   ("transformationTypes", ⟨MongooseFieldType.string, true⟩),
   ("publicId", ⟨MongooseFieldType.string, true⟩),
   ("secureURL", ⟨MongooseFieldType.string, true⟩),
   ("width", ⟨MongooseFieldType.number, false⟩),
   ("height", ⟨MongooseFieldType.number, false⟩),
   ("config", ⟨MongooseFieldType.obj, false⟩),
   ("transformationUrl", ⟨MongooseFieldType.url, false⟩),
   ("aspectRatio", ⟨MongooseFieldType.string, false⟩),
   ("color", ⟨MongooseFieldType.string, false⟩),
   ("prompt", ⟨MongooseFieldType.string, false⟩),
   ("author", ⟨MongooseFieldType.objectIdRef "User", false⟩),
   ("createdAt", ⟨MongooseFieldType.date, false⟩),
   ("updatedAt", ⟨MongooseFieldType.date, false⟩)]

/-- A TypeScript type as used in the `ImageModel` interface. -/
inductive TSType where
  | str
  | num
  | date
  | strArr
  | obj
  | strOrUrl
  | authorObj
  deriving DecidableEq, Repr

/-- One field of a TypeScript interface: its type and whether the field is
optional (`?`). -/
structure TSField where
  ty : TSType
  optional : Bool
  deriving DecidableEq, Repr

/-- The `ImageModel` interface (image.model.ts lines 3-22), field by field
as the source declares it: `transformationTypes: string[]` — an ordered
array of strings. -/
def ImageModelTS : List (String × TSField) :=
  [("title", ⟨TSType.str, false⟩),
   ("transformationTypes", ⟨TSType.strArr, false⟩),
   ("publicId", ⟨TSType.str, false⟩),
   ("secureURL", ⟨TSType.str, false⟩),
   ("width", ⟨TSType.num, true⟩),
   ("height", ⟨TSType.num, true⟩),
   ("config", ⟨TSType.obj, true⟩),
   ("transformationUrl", ⟨TSType.strOrUrl, true⟩),
   ("aspectRatio", ⟨TSType.str, true⟩),
   ("color", ⟨TSType.str, true⟩),
   ("prompt", ⟨TSType.str, true⟩),
   ("author", ⟨TSType.authorObj, false⟩),
   ("createdAt", ⟨TSType.date, false⟩),
   ("updatedAt", ⟨TSType.date, false⟩)]

/-! ### Store-level helper lemmas -/

theorem find?_of_split {α : Type} (p : α → Bool) (l1 l2 : List α) (x : α)
    (h1 : ∀ y ∈ l1, p y = false) (hx : p x = true) :
    (l1 ++ x :: l2).find? p = some x := by
  induction l1 with
  | nil => simpa using List.find?_cons_of_pos l2 hx
  | cons a l ih =>
      have ha : p a = false := h1 a (by simp)
      have hrest : ∀ y ∈ l, p y = false := fun y hy => h1 y (by simp [hy])
      simpa [List.find?_cons_of_neg, ha] using ih hrest

theorem replaceFirst_split (p : UserDoc → Bool) (f : UserDoc → UserDoc)
    (users : List UserDoc) (d : UserDoc) (h : users.find? p = some d) :
    ∃ l1 l2, users = l1 ++ d :: l2 ∧ (∀ x ∈ l1, p x = false) ∧ p d = true ∧
      replaceFirst p f users = some (f d, l1 ++ f d :: l2) := by
  induction users with
  | nil => simp [List.find?] at h
  | cons u rest ih =>
      cases hp : p u with
      | true =>
          rw [List.find?_cons_of_pos rest hp] at h
          obtain rfl : u = d := by injection h
          exact ⟨[], rest, rfl, by simp, hp, by simp [replaceFirst, hp]⟩
      | false =>
          rw [List.find?_cons_of_neg rest (by simp [hp])] at h
          obtain ⟨l1, l2, hsplit, hl1, hd, hrepl⟩ := ih h
          refine ⟨u :: l1, l2, by simp [hsplit], ?_, hd, ?_⟩
          · intro x hx
            rcases List.mem_cons.mp hx with rfl | hx
            · exact hp
            · exact hl1 x hx
          · simp [replaceFirst, hp, hrepl]

theorem replaceFirst_of_none (p : UserDoc → Bool) (f : UserDoc → UserDoc)
    (users : List UserDoc) (h : users.find? p = none) :
    replaceFirst p f users = none := by
  induction users with
  | nil => rfl
  | cons u rest ih =>
      rw [List.find?_eq_none] at h
      have hp : p u = false := by simpa using h u (by simp)
      have hrest : rest.find? p = none := by
        rw [List.find?_eq_none]
        exact fun x hx => h x (by simp [hx])
      simp [replaceFirst, hp, ih hrest]

theorem removeFirst_split (p : UserDoc → Bool)
    (users : List UserDoc) (d : UserDoc) (h : users.find? p = some d) :
    ∃ l1 l2, users = l1 ++ d :: l2 ∧ (∀ x ∈ l1, p x = false) ∧ p d = true ∧
      removeFirst p users = some (d, l1 ++ l2) := by
  induction users with
  | nil => simp [List.find?] at h
  | cons u rest ih =>
      cases hp : p u with
      | true =>
          rw [List.find?_cons_of_pos rest hp] at h
          obtain rfl : u = d := by injection h
          exact ⟨[], rest, rfl, by simp, hp, by simp [removeFirst, hp]⟩
      | false =>
          rw [List.find?_cons_of_neg rest (by simp [hp])] at h
          obtain ⟨l1, l2, hsplit, hl1, hd, hrem⟩ := ih h
          refine ⟨u :: l1, l2, by simp [hsplit], ?_, hd, ?_⟩
          · intro x hx
            rcases List.mem_cons.mp hx with rfl | hx
            · exact hp
            · exact hl1 x hx
          · simp [removeFirst, hp, hrem]

theorem removeFirst_of_none (p : UserDoc → Bool)
    (users : List UserDoc) (h : users.find? p = none) :
    removeFirst p users = none := by
  induction users with
  | nil => rfl
  | cons u rest ih =>
      rw [List.find?_eq_none] at h
      have hp : p u = false := by simpa using h u (by simp)
      have hrest : rest.find? p = none := by
        rw [List.find?_eq_none]
        exact fun x hx => h x (by simp [hx])
      simp [removeFirst, hp, ih hrest]

/-! ### Merge-loop helper lemmas -/

theorem findVal_setKey_self (out : List (String × JVal)) (k : String) (v : JVal) :
    findVal (setKey out k v) k = some v := by
  induction out with
  | nil => simp [setKey, findVal]
  | cons kv rest ih =>
      obtain ⟨k', v'⟩ := kv
      by_cases hk : k' = k
      · simp [setKey, findVal, hk]
      · simp [setKey, findVal, hk, ih]

theorem findVal_setKey_ne (out : List (String × JVal)) (k₁ k₂ : String)
    (v : JVal) (h : k₁ ≠ k₂) :
    findVal (setKey out k₁ v) k₂ = findVal out k₂ := by
  induction out with
  | nil => simp [setKey, findVal, h]
  | cons kv rest ih =>
      obtain ⟨k', v'⟩ := kv
      by_cases hk : k' = k₁
      · subst hk
        simp [setKey, findVal, h]
      · simp [setKey, findVal, hk, ih]

theorem findVal_eq_none_of_not_mem (l : List (String × JVal)) (k : String)
    (h : k ∉ l.map Prod.fst) : findVal l k = none := by
  induction l with
  | nil => rfl
  | cons kv rest ih =>
      obtain ⟨k', v'⟩ := kv
      simp only [List.map_cons, List.mem_cons] at h
      push_neg at h
      have hk : ¬k' = k := fun hkk => h.1 hkk.symm
      simp [findVal, hk, ih h.2]

theorem mergeLoop_cons (k : String) (v1 : JVal)
    (rest f2 out : List (String × JVal)) :
    mergeLoop ((k, v1) :: rest) f2 out =
      mergeLoop rest f2 (setKey out k (mergedValue v1 (findVal f2 k))) := by
  cases h : findVal f2 k with
  | none => rw [mergeLoop]; simp [mergedValue, h]
  | some v2 => rw [mergeLoop]; simp [mergedValue, h]

theorem mergeLoop_notin (f1 f2 out : List (String × JVal)) (k : String)
    (h : findVal f1 k = none) :
    findVal (mergeLoop f1 f2 out) k = findVal out k := by
  induction f1 generalizing out with
  | nil => rw [mergeLoop]
  | cons kv rest ih =>
      obtain ⟨k0, v0⟩ := kv
      rw [mergeLoop_cons]
      have hk0 : k0 ≠ k := by
        intro hkk
        simp [findVal, hkk] at h
      have hrest : findVal rest k = none := by
        simpa [findVal, hk0] using h
      rw [ih _ hrest, findVal_setKey_ne _ _ _ _ hk0]

theorem mergeLoop_found (f1 f2 out : List (String × JVal)) (k : String)
    (v1 : JVal) (hnd : (f1.map Prod.fst).Nodup)
    (h : findVal f1 k = some v1) :
    findVal (mergeLoop f1 f2 out) k = some (mergedValue v1 (findVal f2 k)) := by
  induction f1 generalizing out with
  | nil => simp [findVal] at h
  | cons kv rest ih =>
      obtain ⟨k0, v0⟩ := kv
      rw [mergeLoop_cons]
      simp only [List.map_cons, List.nodup_cons] at hnd
      by_cases hk : k0 = k
      · subst hk
        have hv : v0 = v1 := by simpa [findVal] using h
        subst hv
        have hnone : findVal rest k0 = none :=
          findVal_eq_none_of_not_mem rest k0 hnd.1
        rw [mergeLoop_notin rest f2 _ k0 hnone, findVal_setKey_self]
      · have h' : findVal rest k = some v1 := by simpa [findVal, hk] using h
        exact ih _ hnd.2 h'

/-- The merge of two objects runs the key loop of `obj1` over a copy of
`obj2`. -/
theorem deepMergeObjects_obj (f1 f2 : List (String × JVal)) :
    deepMergeObjects (JVal.obj f1) (JVal.obj f2) =
      JVal.obj (mergeLoop f1 f2 f2) := by
  rw [deepMergeObjects] <;> simp [fieldsOf]

/-! ### Claim C10 -/

/-- C10: `deepMergeObjects(obj1, obj2)` gives precedence to `obj1`: when
`obj2` is `null` or `undefined` the result is `obj1` itself; a key present
in both objects whose values are not both objects maps to `obj1`'s value;
a key present only in `obj2` keeps `obj2`'s value; and a key whose values
are both objects maps to the recursive merge (same precedence).  Keys of a
JavaScript object are unique, hence the `Nodup` hypotheses. -/
theorem claim_C10_deepMergeObjects_precedence :
    (∀ o1, deepMergeObjects o1 JVal.null = o1 ∧
      deepMergeObjects o1 JVal.undef = o1) ∧
    (∀ f1 f2 k v1 v2, (f1.map Prod.fst).Nodup →
      findVal f1 k = some v1 → findVal f2 k = some v2 →
      (isObjV v1 && isObjV v2) = false →
      findVal (fieldsOf (deepMergeObjects (JVal.obj f1) (JVal.obj f2))) k =
        some v1) ∧
    (∀ f1 f2 k v2, findVal f1 k = none → findVal f2 k = some v2 →
      findVal (fieldsOf (deepMergeObjects (JVal.obj f1) (JVal.obj f2))) k =
        some v2) ∧
    (∀ f1 f2 k v1 v2, (f1.map Prod.fst).Nodup →
      findVal f1 k = some v1 → findVal f2 k = some v2 →
      isObjV v1 = true → isObjV v2 = true →
      findVal (fieldsOf (deepMergeObjects (JVal.obj f1) (JVal.obj f2))) k =
        some (deepMergeObjects v1 v2)) := by
  refine ⟨fun o1 => ⟨by rw [deepMergeObjects], by rw [deepMergeObjects]⟩,
    ?_, ?_, ?_⟩
  · intro f1 f2 k v1 v2 hnd h1 h2 hobj
    rw [deepMergeObjects_obj]
    simp only [fieldsOf]
    rw [mergeLoop_found f1 f2 f2 k v1 hnd h1, h2]
    simp [mergedValue, hobj]
  · intro f1 f2 k v2 h1 h2
    rw [deepMergeObjects_obj]
    simp only [fieldsOf]
    rw [mergeLoop_notin f1 f2 f2 k h1]
    exact h2
  · intro f1 f2 k v1 v2 hnd h1 h2 hv1 hv2
    rw [deepMergeObjects_obj]
    simp only [fieldsOf]
    rw [mergeLoop_found f1 f2 f2 k v1 hnd h1, h2]
    simp [mergedValue, hv1, hv2]

/-- First merge operand of the C10 witness. -/
def mergeW1 : List (String × JVal) :=
  [("a", JVal.num 1), ("b", JVal.obj [("x", JVal.num 2)])]

/-- Second merge operand of the C10 witness. -/
def mergeW2 : List (String × JVal) :=
  [("a", JVal.num 9),
   ("b", JVal.obj [("x", JVal.num 7), ("y", JVal.num 8)]),
   ("c", JVal.str "s")]

theorem claim_C10_deepMergeObjects_precedence_witness :
    deepMergeObjects (JVal.num 5) JVal.null = JVal.num 5 ∧
    ((mergeW1.map Prod.fst).Nodup ∧
      findVal mergeW1 "a" = some (JVal.num 1) ∧
      findVal mergeW2 "a" = some (JVal.num 9) ∧
      (isObjV (JVal.num 1) && isObjV (JVal.num 9)) = false ∧
      findVal (fieldsOf (deepMergeObjects (JVal.obj mergeW1)
        (JVal.obj mergeW2))) "a" = some (JVal.num 1)) ∧
    (findVal mergeW1 "c" = none ∧
      findVal mergeW2 "c" = some (JVal.str "s") ∧
      findVal (fieldsOf (deepMergeObjects (JVal.obj mergeW1)
        (JVal.obj mergeW2))) "c" = some (JVal.str "s")) ∧
    (findVal mergeW1 "b" = some (JVal.obj [("x", JVal.num 2)]) ∧
      findVal mergeW2 "b" =
        some (JVal.obj [("x", JVal.num 7), ("y", JVal.num 8)]) ∧
      findVal (fieldsOf (deepMergeObjects (JVal.obj mergeW1)
        (JVal.obj mergeW2))) "b" =
        some (deepMergeObjects (JVal.obj [("x", JVal.num 2)])
          (JVal.obj [("x", JVal.num 7), ("y", JVal.num 8)]))) :=
  ⟨(claim_C10_deepMergeObjects_precedence.1 (JVal.num 5)).1,
    ⟨by decide, rfl, rfl, rfl,
      claim_C10_deepMergeObjects_precedence.2.1 mergeW1 mergeW2 "a"
        (JVal.num 1) (JVal.num 9) (by decide) rfl rfl rfl⟩,
    ⟨rfl, rfl,
      claim_C10_deepMergeObjects_precedence.2.2.1 mergeW1 mergeW2 "c"
        (JVal.str "s") rfl rfl⟩,
    ⟨rfl, rfl,
      claim_C10_deepMergeObjects_precedence.2.2.2 mergeW1 mergeW2 "b"
        (JVal.obj [("x", JVal.num 2)])
        (JVal.obj [("x", JVal.num 7), ("y", JVal.num 8)])
        (by decide) rfl rfl rfl rfl⟩⟩

/-! ### Concrete fixtures used by witnesses and counterexamples -/

/-- A concrete persisted user document (balance 10). -/
def docA : UserDoc :=
  ⟨0, "c1", "e1@x.com", "u1", "p1", "f1", "l1", 1, 10, "s1", "sc1"⟩

/-- A store holding exactly `docA`. -/
def stateA : DBState := ⟨[docA], 1⟩

/-- The empty store. -/
def stateEmpty : DBState := ⟨[], 0⟩

/-- A concrete creation input with initial `creditBalance = 10`. -/
def paramsTen : CreateUserParams :=
  ⟨"c1", "e1@x.com", "u1", "p1", "f1", "l1", 1, 10, "s1", "sc1"⟩

/-- A concrete creation input whose `clerkId` is absent from `stateA`. -/
def paramsFresh : CreateUserParams :=
  ⟨"c2", "e2@x.com", "u2", "p2", "f2", "l2", 2, 25, "s2", "sc2"⟩

/-! ### updateCredits helper -/

theorem updateCredits_found (s : DBState) (u : Nat) (fee : Int) (d : UserDoc)
    (h : findById s.users u = some d) :
    (updateCredits none u fee s).outcome =
      Outcome.ok { d with creditBalance := d.creditBalance + fee } ∧
    findById (updateCredits none u fee s).state.users u =
      some { d with creditBalance := d.creditBalance + fee } := by
  obtain ⟨l1, l2, hsplit, hl1, hd, hrepl⟩ :=
    replaceFirst_split (fun x => x._id == u)
      (fun x => { x with creditBalance := x.creditBalance + fee }) s.users d
      (by simpa [findById] using h)
  refine ⟨by simp [updateCredits, hrepl], ?_⟩
  simp only [updateCredits, hrepl, findById]
  exact find?_of_split _ l1 l2 _ hl1 (by simpa using hd)

/-! ### Claim C1 -/

/-- C1: for every primary key and integer delta, `updateCredits` performs
the balance change as one database-level increment (the store transition
rewrites the matched document in place, leaving every other document and
every other field untouched — never a fetch followed by a write), rejects
with the normalised adjustment error when no record matches the primary
key, and on success resolves with the post-adjustment record, whose
`creditBalance` is the prior balance plus the delta. -/
theorem claim_C1_updateCredits_atomic_increment :
    ∀ (s : DBState) (uid : Nat) (fee : Int),
      (findById s.users uid = none →
        updateCredits none uid fee s =
          ⟨Outcome.err "Error: User credits update failed", s,
            ["User credits update failed"], []⟩) ∧
      (∀ d, findById s.users uid = some d →
        ∃ l1 l2, s.users = l1 ++ d :: l2 ∧
          (∀ x ∈ l1, (x._id == uid) = false) ∧
          updateCredits none uid fee s =
            ⟨Outcome.ok { d with creditBalance := d.creditBalance + fee },
              ⟨l1 ++ { d with creditBalance := d.creditBalance + fee } :: l2,
                s.nextId⟩, [], []⟩) := by
  intro s uid fee
  constructor
  · intro h
    have hnone := replaceFirst_of_none (fun x => x._id == uid)
      (fun x => { x with creditBalance := x.creditBalance + fee }) s.users
      (by simpa [findById] using h)
    simp [updateCredits, hnone, catchWith, handleError]
  · intro d h
    obtain ⟨l1, l2, hsplit, hl1, _, hrepl⟩ :=
      replaceFirst_split (fun x => x._id == uid)
        (fun x => { x with creditBalance := x.creditBalance + fee }) s.users d
        (by simpa [findById] using h)
    exact ⟨l1, l2, hsplit, hl1, by simp [updateCredits, hrepl]⟩

theorem claim_C1_updateCredits_atomic_increment_witness :
    (findById stateA.users 99 = none ∧
      updateCredits none 99 5 stateA =
        ⟨Outcome.err "Error: User credits update failed", stateA,
          ["User credits update failed"], []⟩) ∧
    (findById stateA.users 0 = some docA ∧
      ∃ l1 l2, stateA.users = l1 ++ docA :: l2 ∧
        (∀ x ∈ l1, (x._id == 0) = false) ∧
        updateCredits none 0 5 stateA =
          ⟨Outcome.ok { docA with creditBalance := docA.creditBalance + 5 },
            ⟨l1 ++ { docA with creditBalance := docA.creditBalance + 5 } :: l2,
              stateA.nextId⟩, [], []⟩) :=
  ⟨⟨by decide,
      (claim_C1_updateCredits_atomic_increment stateA 99 5).1 (by decide)⟩,
    ⟨by decide,
      (claim_C1_updateCredits_atomic_increment stateA 0 5).2 docA (by decide)⟩⟩

/-! ### Claim C4 -/

/-- C4: each `adjustCredits` is a single atomic store-level increment (the
code's `$inc`), so an interleaved execution of `adjustCredits(u, delta1)`
and `adjustCredits(u, delta2)` is one of the two serial orders; in both
orders both calls succeed and the final `creditBalance` is
`initial + delta1 + delta2` — no lost update. -/
theorem claim_C4_concurrent_adjustments_compose :
    ∀ (s : DBState) (u : Nat) (d1 d2 : Int) (d : UserDoc),
      findById s.users u = some d →
      (∃ r, (updateCredits none u d1 s).outcome = Outcome.ok r) ∧
      (∃ r, (updateCredits none u d2 s).outcome = Outcome.ok r) ∧
      (∃ r12,
        (updateCredits none u d2 (updateCredits none u d1 s).state).outcome =
          Outcome.ok r12 ∧
        findById (updateCredits none u d2
          (updateCredits none u d1 s).state).state.users u = some r12 ∧
        r12.creditBalance = d.creditBalance + d1 + d2) ∧
      (∃ r21,
        (updateCredits none u d1 (updateCredits none u d2 s).state).outcome =
          Outcome.ok r21 ∧
        findById (updateCredits none u d1
          (updateCredits none u d2 s).state).state.users u = some r21 ∧
        r21.creditBalance = d.creditBalance + d1 + d2) := by
  intro s u d1 d2 d h
  obtain ⟨ho1, hf1⟩ := updateCredits_found s u d1 d h
  obtain ⟨ho2, hf2⟩ := updateCredits_found s u d2 d h
  obtain ⟨ho12, hf12⟩ := updateCredits_found _ u d2 _ hf1
  obtain ⟨ho21, hf21⟩ := updateCredits_found _ u d1 _ hf2
  refine ⟨⟨_, ho1⟩, ⟨_, ho2⟩, ⟨_, ho12, hf12, rfl⟩, ⟨_, ho21, hf21, ?_⟩⟩
  simp only []
  omega

theorem claim_C4_concurrent_adjustments_compose_witness :
    findById stateA.users 0 = some docA ∧
    ((∃ r, (updateCredits none 0 (-5) stateA).outcome = Outcome.ok r) ∧
      (∃ r, (updateCredits none 0 (-5) stateA).outcome = Outcome.ok r) ∧
      (∃ r12,
        (updateCredits none 0 (-5)
          (updateCredits none 0 (-5) stateA).state).outcome =
            Outcome.ok r12 ∧
        findById (updateCredits none 0 (-5)
          (updateCredits none 0 (-5) stateA).state).state.users 0 =
            some r12 ∧
        r12.creditBalance = docA.creditBalance + (-5) + (-5)) ∧
      (∃ r21,
        (updateCredits none 0 (-5)
          (updateCredits none 0 (-5) stateA).state).outcome =
            Outcome.ok r21 ∧
        findById (updateCredits none 0 (-5)
          (updateCredits none 0 (-5) stateA).state).state.users 0 =
            some r21 ∧
        r21.creditBalance = docA.creditBalance + (-5) + (-5))) :=
  ⟨by decide,
    claim_C4_concurrent_adjustments_compose stateA 0 (-5) (-5) docA
      (by decide)⟩

/-! ### Claim C9 -/

/-- C9: `updateCredits` applies the exact integer delta with no enforced
floor: in general the post-adjustment balance is the prior balance plus
the delta; concretely, after creating a user with `creditBalance = 10`,
adjusting by `-3` yields exactly `7`, and a further adjustment by `-100`
applies in full, yielding `-93` — the balance goes negative with no clamp
and no rejection. -/
theorem claim_C9_exact_delta_no_floor :
    (∀ (s : DBState) (uid : Nat) (fee : Int) (d : UserDoc),
      findById s.users uid = some d →
      (updateCredits none uid fee s).outcome =
        Outcome.ok { d with creditBalance := d.creditBalance + fee }) ∧
    ((updateCredits none 0 (-3)
        (createUser none paramsTen stateEmpty).state).outcome =
      Outcome.ok { mkDoc paramsTen 0 with creditBalance := 7 } ∧
     (updateCredits none 0 (-100)
        (updateCredits none 0 (-3)
          (createUser none paramsTen stateEmpty).state).state).outcome =
      Outcome.ok { mkDoc paramsTen 0 with creditBalance := -93 } ∧
     (-93 : Int) < 0) := by
  refine ⟨?_, by decide, by decide, by decide⟩
  intro s uid fee d h
  exact (updateCredits_found s uid fee d h).1

theorem claim_C9_exact_delta_no_floor_witness :
    findById stateA.users 0 = some docA ∧
    (updateCredits none 0 (-3) stateA).outcome =
      Outcome.ok { docA with creditBalance := docA.creditBalance + (-3) } :=
  ⟨by decide, claim_C9_exact_delta_no_floor.1 stateA 0 (-3) docA (by decide)⟩

/-! ### Claim C2 -/

/-- C2 counterexample: a store-level failure whose thrown value is neither
an `Error` instance nor a string — for example a thrown number — falls
through every branch of `handleError`, so the catch block completes
normally: the operation resolves (with `undefined`), logs nothing and
re-raises nothing.  This refutes the claim that no operation resolves
normally after a store-level failure regardless of the thrown value's
type. -/
theorem claim_C2_counterexample_swallowed_failure :
    createUser (some JSErr.other) paramsTen stateEmpty =
      ⟨Outcome.okUndefined, stateEmpty, [], []⟩ ∧
    getUserById (some JSErr.other) "c1" stateA =
      ⟨Outcome.okUndefined, stateA, [], []⟩ ∧
    updateUser (some JSErr.other) "c1" UpdateUserPayload.empty stateA =
      ⟨Outcome.okUndefined, stateA, [], []⟩ ∧
    deleteUser (some JSErr.other) "c1" stateA =
      ⟨Outcome.okUndefined, stateA, [], []⟩ ∧
    updateCredits (some JSErr.other) 0 5 stateA =
      ⟨Outcome.okUndefined, stateA, [], []⟩ :=
  ⟨rfl, rfl, rfl, rfl, rfl⟩

/-- C2 (amended): every store-level failure whose thrown value is an
`Error` instance or a string is caught at the operation boundary of each
of the five operations, logged with the original message, and re-raised
as a normalized error; a thrown value of any other type is instead
silently swallowed and the operation resolves with `undefined`. -/
theorem claim_C2_amended_error_boundary :
    ∀ (m t : String) (u : CreateUserParams) (p : UpdateUserPayload)
      (cid : String) (uid : Nat) (fee : Int) (s : DBState),
      createUser (some (JSErr.errObj m)) u s =
        ⟨Outcome.err ("Error: " ++ m), s, [m], []⟩ ∧
      getUserById (some (JSErr.errObj m)) cid s =
        ⟨Outcome.err ("Error: " ++ m), s, [m], []⟩ ∧
      updateUser (some (JSErr.errObj m)) cid p s =
        ⟨Outcome.err ("Error: " ++ m), s, [m], []⟩ ∧
      deleteUser (some (JSErr.errObj m)) cid s =
        ⟨Outcome.err ("Error: " ++ m), s, [m], []⟩ ∧
      updateCredits (some (JSErr.errObj m)) uid fee s =
        ⟨Outcome.err ("Error: " ++ m), s, [m], []⟩ ∧
      createUser (some (JSErr.strVal t)) u s =
        ⟨Outcome.err ("Unknown error: " ++ "\"" ++ t ++ "\""), s, [t], []⟩ ∧
      getUserById (some (JSErr.strVal t)) cid s =
        ⟨Outcome.err ("Unknown error: " ++ "\"" ++ t ++ "\""), s, [t], []⟩ ∧
      updateUser (some (JSErr.strVal t)) cid p s =
        ⟨Outcome.err ("Unknown error: " ++ "\"" ++ t ++ "\""), s, [t], []⟩ ∧
      deleteUser (some (JSErr.strVal t)) cid s =
        ⟨Outcome.err ("Unknown error: " ++ "\"" ++ t ++ "\""), s, [t], []⟩ ∧
      updateCredits (some (JSErr.strVal t)) uid fee s =
        ⟨Outcome.err ("Unknown error: " ++ "\"" ++ t ++ "\""), s, [t], []⟩ :=
  fun _ _ _ _ _ _ _ _ =>
    ⟨rfl, rfl, rfl, rfl, rfl, rfl, rfl, rfl, rfl, rfl⟩

/-! ### Claim C3 -/

/-- C3: the code evaluated at the failing input.  With exactly one user in
the store, `deleteUser` on that user's `clerkId` succeeds — yet resolves
`null`, not the deleted record: `findOneAndDelete` has already removed
the record, so the secondary `findByIdAndDelete` on its primary key finds
nothing, and the function returns `null` for every existing user, against
its own documented result ("resolves to the deleted user, or null if the
user is not found"). -/
theorem claim_C3_delete_resolves_null_for_existing_user :
    docA.clerkId = "c1" ∧ stateA.users = [docA] ∧
    deleteUser none "c1" stateA = ⟨Outcome.ok none, ⟨[], 1⟩, [], ["/"]⟩ ∧
    deleteUser none "missing" stateA =
      ⟨Outcome.err "Error: User not found", stateA, ["User not found"], []⟩ :=
  ⟨rfl, rfl, by decide, by decide⟩

/-! ### Claim C5 -/

/-- C5: for every existing user record, `updateUser` replaces exactly the
named fields of the matching record: the store transition rewrites only
the matched document, the result is the post-update record, `_id` and
`clerkId` are untouched, every field absent from the payload keeps its
prior value, and every field named in the payload takes the payload's
value. -/
theorem claim_C5_update_replaces_exactly_named_fields :
    ∀ (s : DBState) (cid : String) (p : UpdateUserPayload) (d : UserDoc),
      findByClerk s.users cid = some d →
      (updateUser none cid p s).outcome = Outcome.ok (applyUpdate d p) ∧
      (∃ l1 l2, s.users = l1 ++ d :: l2 ∧
        (updateUser none cid p s).state.users =
          l1 ++ applyUpdate d p :: l2) ∧
      (applyUpdate d p)._id = d._id ∧
      (applyUpdate d p).clerkId = d.clerkId ∧
      (p.email = none → (applyUpdate d p).email = d.email) ∧
      (∀ v, p.email = some v → (applyUpdate d p).email = v) ∧
      (p.username = none → (applyUpdate d p).username = d.username) ∧
      (∀ v, p.username = some v → (applyUpdate d p).username = v) ∧
      (p.photo = none → (applyUpdate d p).photo = d.photo) ∧
      (∀ v, p.photo = some v → (applyUpdate d p).photo = v) ∧
      (p.firstname = none → (applyUpdate d p).firstname = d.firstname) ∧
      (∀ v, p.firstname = some v → (applyUpdate d p).firstname = v) ∧
      (p.lastname = none → (applyUpdate d p).lastname = d.lastname) ∧
      (∀ v, p.lastname = some v → (applyUpdate d p).lastname = v) ∧
      (p.planId = none → (applyUpdate d p).planId = d.planId) ∧
      (∀ v, p.planId = some v → (applyUpdate d p).planId = v) ∧
      (p.creditBalance = none →
        (applyUpdate d p).creditBalance = d.creditBalance) ∧
      (∀ v, p.creditBalance = some v → (applyUpdate d p).creditBalance = v) ∧
      (p.stripeId = none → (applyUpdate d p).stripeId = d.stripeId) ∧
      (∀ v, p.stripeId = some v → (applyUpdate d p).stripeId = v) ∧
      (p.stripeCustomerId = none →
        (applyUpdate d p).stripeCustomerId = d.stripeCustomerId) ∧
      (∀ v, p.stripeCustomerId = some v →
        (applyUpdate d p).stripeCustomerId = v) := by
  intro s cid p d h
  obtain ⟨l1, l2, hsplit, _, _, hrepl⟩ :=
    replaceFirst_split (fun x => x.clerkId == cid)
      (fun x => applyUpdate x p) s.users d (by simpa [findByClerk] using h)
  refine ⟨by simp [updateUser, hrepl], ⟨l1, l2, hsplit, by simp [updateUser, hrepl]⟩,
    rfl, rfl, ?_, ?_, ?_, ?_, ?_, ?_, ?_, ?_, ?_, ?_, ?_, ?_, ?_, ?_, ?_,
    ?_, ?_, ?_⟩ <;>
  first
    | (intro hn; simp [applyUpdate, hn])
    | (intro v hv; simp [applyUpdate, hv])

/-- The single-field payload `{ username: "x" }`. -/
def payloadUsername : UpdateUserPayload :=
  { UpdateUserPayload.empty with username := some "x" }

theorem claim_C5_update_replaces_exactly_named_fields_witness :
    findByClerk stateA.users "c1" = some docA ∧
    ((updateUser none "c1" payloadUsername stateA).outcome =
      Outcome.ok (applyUpdate docA payloadUsername) ∧
     (applyUpdate docA payloadUsername).username = "x" ∧
     (applyUpdate docA payloadUsername).email = docA.email ∧
     (applyUpdate docA payloadUsername).creditBalance = docA.creditBalance) :=
  by
  have h := claim_C5_update_replaces_exactly_named_fields stateA "c1"
    payloadUsername docA (by decide)
  refine ⟨by decide, h.1, ?_, ?_, ?_⟩
  · exact h.2.2.2.2.2.2.2.1 "x" rfl
  · exact h.2.2.2.2.1 rfl
  · exact h.2.2.2.2.2.2.2.2.2.2.2.2.2.2.2.2.1 rfl

/-! ### Claim C6 -/

/-- C6: for every valid creation input (in particular, spec section 3's
invariant that `clerkId` identifies at most one live record: no existing
record carries the input's `clerkId`), `getUserById` of the input's
`clerkId` immediately after `createUser` resolves with exactly the
persisted record — the creation input's fields plus the
database-assigned primary key. -/
theorem claim_C6_get_after_create_roundtrip :
    ∀ (s : DBState) (u : CreateUserParams),
      (∀ d ∈ s.users, d.clerkId ≠ u.clerkId) →
      (createUser none u s).outcome = Outcome.ok (mkDoc u s.nextId) ∧
      (getUserById none u.clerkId (createUser none u s).state).outcome =
        Outcome.ok (mkDoc u s.nextId) ∧
      (mkDoc u s.nextId)._id = s.nextId ∧
      (mkDoc u s.nextId).clerkId = u.clerkId ∧
      (mkDoc u s.nextId).email = u.email ∧
      (mkDoc u s.nextId).username = u.username ∧
      (mkDoc u s.nextId).photo = u.photo ∧
      (mkDoc u s.nextId).firstname = u.firstname ∧
      (mkDoc u s.nextId).lastname = u.lastname ∧
      (mkDoc u s.nextId).planId = u.planId ∧
      (mkDoc u s.nextId).creditBalance = u.creditBalance ∧
      (mkDoc u s.nextId).stripeId = u.stripeId ∧
      (mkDoc u s.nextId).stripeCustomerId = u.stripeCustomerId := by
  intro s u hfresh
  have hfind : findByClerk (s.users ++ [mkDoc u s.nextId]) u.clerkId =
      some (mkDoc u s.nextId) := by
    refine find?_of_split _ s.users [] _ ?_ (by simp [mkDoc])
    intro y hy
    simpa using beq_eq_false_iff_ne.mpr (hfresh y hy)
  refine ⟨rfl, ?_, rfl, rfl, rfl, rfl, rfl, rfl, rfl, rfl, rfl, rfl, rfl⟩
  simp [createUser, getUserById, hfind]

theorem claim_C6_get_after_create_roundtrip_witness :
    (∀ d ∈ stateA.users, d.clerkId ≠ paramsFresh.clerkId) ∧
    ((createUser none paramsFresh stateA).outcome =
      Outcome.ok (mkDoc paramsFresh stateA.nextId) ∧
     (getUserById none paramsFresh.clerkId
        (createUser none paramsFresh stateA).state).outcome =
      Outcome.ok (mkDoc paramsFresh stateA.nextId)) :=
  ⟨by decide,
    (claim_C6_get_after_create_roundtrip stateA paramsFresh (by decide)).1,
    (claim_C6_get_after_create_roundtrip stateA paramsFresh (by decide)).2.1⟩

/-! ### Claim C7 -/

theorem removeFirst_sublist (p : UserDoc → Bool) (l : List UserDoc) :
    ∀ (x : UserDoc) (l' : List UserDoc),
      removeFirst p l = some (x, l') → List.Sublist l' l := by
  induction l with
  | nil => intro x l' h; simp [removeFirst] at h
  | cons a rest ih =>
      intro x l' h
      cases hp : p a with
      | true =>
          simp [removeFirst, hp] at h
          rw [← h.2]
          exact List.sublist_cons_self a rest
      | false =>
          simp [removeFirst, hp] at h
          obtain ⟨l'', hrem, heq, hx, hl⟩ := h
          subst hx
          rw [← hl]
          exact (ih l'' hrem heq).cons₂ a

/-- The update payload that names only `creditBalance` (value 42). -/
def payloadCredit : UpdateUserPayload :=
  { UpdateUserPayload.empty with creditBalance := some 42 }

/-- C7 counterexample: `updateUser` — an exposed operation other than
`updateCredits` — changes a record's `creditBalance` whenever its payload
names that field: updating the sole user (balance 10) with the payload
`{ creditBalance: 42 }` leaves the stored balance 42. -/
theorem claim_C7_counterexample_updateUser_mutates_balance :
    stateA.users.map UserDoc.creditBalance = [10] ∧
    (updateUser none "c1" payloadCredit stateA).state.users.map
      UserDoc.creditBalance = [42] ∧
    (updateUser none "c1" payloadCredit stateA).outcome =
      Outcome.ok { docA with creditBalance := 42 } :=
  ⟨rfl, by decide, by decide⟩

/-- C7 (amended): `creditBalance` is mutated only through the atomic
adjustment operation `updateCredits` — except that `updateUser` also
changes it when its partial-fields payload itself names `creditBalance`.
Every other exposed path preserves balances: `getUserById` leaves the
store untouched; `updateUser` with a payload not naming `creditBalance`
preserves every record's balance; `createUser` only appends a new record,
leaving existing balances unchanged; `deleteUser` only removes records,
every surviving record being byte-identical to one already in the
store. -/
theorem claim_C7_amended_balance_mutation_paths :
    (∀ (f : Option JSErr) (uid : String) (s : DBState),
      (getUserById f uid s).state = s) ∧
    (∀ (f : Option JSErr) (cid : String) (p : UpdateUserPayload)
      (s : DBState), p.creditBalance = none →
      (updateUser f cid p s).state.users.map UserDoc.creditBalance =
        s.users.map UserDoc.creditBalance) ∧
    (∀ (u : CreateUserParams) (s : DBState),
      (createUser none u s).state.users.map UserDoc.creditBalance =
        s.users.map UserDoc.creditBalance ++ [u.creditBalance]) ∧
    (∀ (e : JSErr) (u : CreateUserParams) (s : DBState),
      (createUser (some e) u s).state = s) ∧
    (∀ (f : Option JSErr) (cid : String) (s : DBState),
      List.Sublist (deleteUser f cid s).state.users s.users) := by
  refine ⟨?_, ?_, ?_, ?_, ?_⟩
  · intro f uid s
    match f with
    | some e => cases e <;> rfl
    | none =>
        cases h : findByClerk s.users uid with
        | none => simp [getUserById, h, catchWith, handleError]
        | some d => simp [getUserById, h]
  · intro f cid p s hp
    match f with
    | some e => cases e <;> rfl
    | none =>
        cases h : s.users.find? (fun x => x.clerkId == cid) with
        | none =>
            have hnone := replaceFirst_of_none (fun x => x.clerkId == cid)
              (fun x => applyUpdate x p) s.users h
            simp [updateUser, hnone, catchWith, handleError]
        | some d =>
            obtain ⟨l1, l2, hsplit, _, _, hrepl⟩ :=
              replaceFirst_split (fun x => x.clerkId == cid)
                (fun x => applyUpdate x p) s.users d h
            have hcb : (applyUpdate d p).creditBalance = d.creditBalance := by
              simp [applyUpdate, hp]
            simp only [updateUser]
            rw [hrepl]
            simp [hsplit, hcb]
  · intro u s
    simp [createUser, mkDoc]
  · intro e u s
    cases e <;> rfl
  · intro f cid s
    match f with
    | some e => cases e <;> exact List.Sublist.refl _
    | none =>
        cases h1 : removeFirst (fun d => d.clerkId == cid) s.users with
        | none => simp [deleteUser, h1, catchWith, handleError]
        | some r1 =>
            obtain ⟨d, rest⟩ := r1
            cases h2 : removeFirst (fun x => x._id == d._id) rest with
            | none =>
                simp only [deleteUser, h1, h2]
                exact removeFirst_sublist _ _ _ _ h1
            | some r2 =>
                obtain ⟨d2, rest2⟩ := r2
                simp only [deleteUser, h1, h2]
                exact (removeFirst_sublist _ _ _ _ h2).trans
                  (removeFirst_sublist _ _ _ _ h1)

theorem claim_C7_amended_balance_mutation_paths_witness :
    (getUserById none "c1" stateA).state = stateA ∧
    (payloadUsername.creditBalance = none ∧
      (updateUser none "c1" payloadUsername stateA).state.users.map
        UserDoc.creditBalance = stateA.users.map UserDoc.creditBalance) ∧
    List.Sublist (deleteUser none "c1" stateA).state.users stateA.users :=
  ⟨claim_C7_amended_balance_mutation_paths.1 none "c1" stateA,
    ⟨rfl, claim_C7_amended_balance_mutation_paths.2.1 none "c1"
      payloadUsername stateA rfl⟩,
    claim_C7_amended_balance_mutation_paths.2.2.2.2 none "c1" stateA⟩

/-! ### Claim C8 -/

/-- C8: the persisted representation contradicts the claim.  The Mongoose
schema — the authority on what is persisted — declares
`transformationTypes` as `{ type: String, required: true }`, a scalar
string, not an array type; the repository's own `ImageModel` interface
declares the same field as `string[]` (an ordered array of strings), so
the schema contradicts the code's own type declaration. -/
theorem claim_C8_transformationTypes_persisted_scalar :
    assocFind ImageSchema "transformationTypes" =
      some ⟨MongooseFieldType.string, true⟩ ∧
    (∀ t, MongooseFieldType.string ≠ MongooseFieldType.arrayOf t) ∧
    assocFind ImageModelTS "transformationTypes" =
      some ⟨TSType.strArr, false⟩ :=
  ⟨rfl, fun _ h => MongooseFieldType.noConfusion h, rfl⟩

end FantasyAI
